import Mathlib

/-!
Shallow embedding of the Ark-engine project lifecycle / ledger engine
(src/api/signalcrypt/generate-batch.ts, App component section) together
with the import handler and the SignalCrypt batch approval normalization.

JavaScript `Record<string, T>` objects are embedded as association lists
`List (String × T)` with the insertion-order semantics of JS objects:
a spread update `{...m, [k]: v}` replaces the entry in place when the key
is present and appends it otherwise (`setEntry`).  `null` becomes `none`,
numbers become `Int`, timestamps (`new Date().toISOString()`) are passed
in as an explicit `now : String` argument.
-/

namespace ArkEngine

/-- `ProjectStateStatus` from the source: the five lifecycle stages. -/
inductive Stage where
  | Planning
  | Building
  | Shipping
  | Maintenance
  | Paused
deriving DecidableEq

/-- `ProjectCategory` from the source. -/
inductive ProjectCategory where
  | Sacred
  | Commercial
deriving DecidableEq

/-- `Energy` from the source. -/
inductive Energy where
  | low
  | medium
  | high
deriving DecidableEq

/-- `WorkMode` from the source. -/
inductive WorkMode where
  | dev
  | sales
  | content
deriving DecidableEq

/-- `Project` from the source. -/
structure Project where
  id : String
  name : String
  goal : String
  category : ProjectCategory
deriving DecidableEq

/-- `Task` from the source (`nextAction?` is optional). -/
structure Task where
  id : String
  projectId : String
  text : String
  completed : Bool
  nextAction : Option String
  createdAt : Int
deriving DecidableEq

/-- `Log` from the source. -/
structure Log where
  id : String
  timestamp : String
  projectId : String
  energy : Energy
  text : String
deriving DecidableEq

/-- `WorkModeOutput` from the source. -/
structure WorkModeOutput where
  mode : WorkMode
  text : String
  createdAt : Int
deriving DecidableEq

/-- `ProjectState` from the source. -/
structure ProjectState where
  stage : Stage
  blockers : String
  nextCheckpoint : String
deriving DecidableEq

/-- `ProjectLedger` from the source.  `confidenceScore: number | null`
becomes `Option Int`. -/
structure ProjectLedger where
  mission : String
  oneSentenceGoal : String
  currentReality : String
  whatIsDone : String
  whatIsWorking : String
  whatIsBroken : String
  whatIsMissing : String
  assets : String
  constraints : String
  nextFocus : String
  killCriteria : String
  automationStatus : String
  confidenceScore : Option Int
  lastUpdated : String
deriving DecidableEq

/-- `Milestone` from the source. -/
structure Milestone where
  id : String
  projectId : String
  text : String
  done : Bool
  createdAt : Int
deriving DecidableEq

/-! ### JS object (`Record<string, T>`) as an association list -/

/-- Lookup `m[k]` on a JS object embedded as an association list. -/
def getEntry {α : Type} : List (String × α) → String → Option α
  | [], _ => none
  | e :: rest, k => if e.1 = k then some e.2 else getEntry rest k

/-- Whether the key is present (`k in m`). -/
def hasKey {α : Type} : List (String × α) → String → Bool
  | [], _ => false
  | e :: rest, k => if e.1 = k then true else hasKey rest k

/-- The spread update `{...m, [k]: v}`: replace in place when the key is
present, append otherwise (JS object insertion-order semantics). -/
def setEntry {α : Type} (m : List (String × α)) (k : String) (v : α) : List (String × α) :=
  if hasKey m k then m.map (fun e => if e.1 = k then (k, v) else e) else m ++ [(k, v)]

/-! ### Seed data and defaults -/

/-- `DEFAULT_PROJECTS` from the source. -/
def DEFAULT_PROJECTS : List Project :=
  [ { id := "ark-engine", name := "Ark Engine (Core)",
      goal := "The command center that tracks truth, progress, and decisions.",
      category := ProjectCategory.Commercial },
    { id := "amanuel-travel", name := "ATA - Amanuel Travel Agency",
      goal := "Travel website and booking system for Eritrean/diaspora travelers.",
      category := ProjectCategory.Commercial },
    { id := "signalcrypt", name := "SignalCrypt",
      goal := "B2B security / trust audit offer with approval-gated outbound systems.",
      category := ProjectCategory.Commercial },
    { id := "strong-still", name := "Strong & Still",
      goal := "Ministry, devotionals, books, spiritual writing, and faith-based rebuilding.",
      category := ProjectCategory.Sacred },
    { id := "luxury-pet", name := "Luxury Pet Business",
      goal := "High-end pet adventures and services.",
      category := ProjectCategory.Commercial },
    { id := "surplus", name := "Surplus Data / Surplus Properties",
      goal := "Identify surplus or public assets and match buyers intelligently.",
      category := ProjectCategory.Commercial },
    { id := "cik-workforce", name := "CIK Workforce System",
      goal := "Workforce management and automation for construction/field teams.",
      category := ProjectCategory.Commercial },
    { id := "ndc-iata", name := "NDC / IATA Airline System",
      goal := "Research and future platform for modern airline distribution and APIs.",
      category := ProjectCategory.Commercial },
    { id := "rebuild-nation", name := "Rebuild Nation",
      goal := "Umbrella identity and long-term legacy mission.",
      category := ProjectCategory.Sacred },
    { id := "automation-workflows", name := "Automation Workflows & Agents",
      goal := "Supporting systems that reduce manual effort across projects.",
      category := ProjectCategory.Commercial } ]

/-- `createDefaultProjectState` from the source: every default project id
maps to `{stage: Planning, blockers: "", nextCheckpoint: ""}` (the
`reduce` inserts fresh keys in list order). -/
def createDefaultProjectState : List (String × ProjectState) :=
  DEFAULT_PROJECTS.map (fun p => (p.id, { stage := Stage.Planning, blockers := "", nextCheckpoint := "" }))

/-- The inline fallback ledger used in the component when a project id is
not in the default ledger map; `oneSentenceGoal` is the caller-supplied
fallback goal (`currentProject?.goal || ''`). -/
def emptyLedgerWithGoal (goal : String) : ProjectLedger :=
  { mission := "", oneSentenceGoal := goal, currentReality := "", whatIsDone := ""
  , whatIsWorking := "", whatIsBroken := "", whatIsMissing := "", assets := ""
  , constraints := "", nextFocus := "", killCriteria := "", automationStatus := ""
  , confidenceScore := none, lastUpdated := "" }

/-- `createDefaultProjectLedger` from the source: every default project id
maps to an empty ledger whose `oneSentenceGoal` is the project goal. -/
def createDefaultProjectLedger : List (String × ProjectLedger) :=
  DEFAULT_PROJECTS.map (fun p => (p.id, emptyLedgerWithGoal p.goal))

/-! ### Derived lock computation (component body) -/

/-- `buildingProjectIds`: ids of projects whose state has `stage` Building,
in `Object.entries` order. -/
def buildingProjectIds (m : List (String × ProjectState)) : List String :=
  (m.filter (fun e => decide (e.2.stage = Stage.Building))).map Prod.fst

/-- `buildingProjectNames`: each Building project id resolved to its display
name (`projects.find(...)?.name || projectId`). -/
def buildingProjectNames (projects : List Project) (m : List (String × ProjectState)) : List String :=
  (buildingProjectIds m).map (fun pid =>
    match projects.find? (fun p => p.id == pid) with
    | some p => if p.name = "" then pid else p.name
    | none => pid)

/-- `hasBuildingConflict`: more than one project in Building. -/
def hasBuildingConflict (m : List (String × ProjectState)) : Bool :=
  decide ((buildingProjectIds m).length > 1)

/-- `currentProjectLedger` in the component:
`projectLedger[pid] || createDefaultProjectLedger()[pid] || inline default`. -/
def currentProjectLedgerOf (projects : List Project) (ledgers : List (String × ProjectLedger))
    (pid : String) : ProjectLedger :=
  match getEntry ledgers pid with
  | some l => l
  | none =>
    match getEntry createDefaultProjectLedger pid with
    | some l => l
    | none => emptyLedgerWithGoal (((projects.find? (fun p => p.id == pid)).map Project.goal).getD "")

/-- `isConfidenceLow`: the score is set and `< 3`. -/
def confidenceLow (c : Option Int) : Bool :=
  match c with
  | some v => decide (v < 3)
  | none => false

/-- `isConfidenceUnset`: the score is `null`. -/
def confidenceUnset (c : Option Int) : Bool :=
  c.isNone

/-- The component's `confidenceScore` constant for the selected project:
`currentProjectLedger?.confidenceScore ?? null`. -/
def confidenceScoreOf (projects : List Project) (ledgers : List (String × ProjectLedger))
    (sel : String) : Option Int :=
  (currentProjectLedgerOf projects ledgers sel).confidenceScore

/-- `isExecutionBlocked = hasBuildingConflict || isConfidenceLow || isConfidenceUnset`
for the selected project. -/
def isExecutionBlocked (projects : List Project) (m : List (String × ProjectState))
    (ledgers : List (String × ProjectLedger)) (sel : String) : Bool :=
  hasBuildingConflict m || confidenceLow (confidenceScoreOf projects ledgers sel) ||
    confidenceUnset (confidenceScoreOf projects ledgers sel)

/-- The `executionBlockMessages` list built in the component body: the
Building-conflict message (naming every Building project) when there is a
conflict, then the unset-confidence message, else the low-confidence
message when applicable. -/
def executionBlockMessages (projects : List Project) (m : List (String × ProjectState))
    (ledgers : List (String × ProjectLedger)) (sel : String) : List String :=
  (if hasBuildingConflict m then
    ["Multiple projects in Building: " ++ String.intercalate ", " (buildingProjectNames projects m)]
   else []) ++
  (if confidenceUnset (confidenceScoreOf projects ledgers sel) then
    ["Confidence score is not set for this project"]
   else if confidenceLow (confidenceScoreOf projects ledgers sel) then
    ["Confidence score is below 3 for this project"]
   else [])

/-! ### Stage changes and ledger updates -/

/-- The two in-memory collections the stage-change handler touches. -/
structure EngineState where
  projectState : List (String × ProjectState)
  projectLedger : List (String × ProjectLedger)
deriving DecidableEq

/-- Alert shown by `handleUpdateProjectState` when the confidence gate
rejects a move into Building or Shipping (one message for both the unset
and the set-but-low case). -/
def confidenceAlertMsg : String :=
  "Confidence must be 3+ to move into Building or Shipping."

/-- Alert shown by `handleUpdateProjectState` when another project is
already in Building. -/
def buildingConflictAlertMsg : String :=
  "Only one project can be in Building. Resolve the conflict first."

/-- `touchLedgerUpdate`: write `lastUpdated: now` onto
`projectLedger[sel] || currentProjectLedger` (which is exactly
`currentProjectLedgerOf`). -/
def touchLedgerUpdate (projects : List Project) (ledgers : List (String × ProjectLedger))
    (sel : String) (now : String) : List (String × ProjectLedger) :=
  setEntry ledgers sel { currentProjectLedgerOf projects ledgers sel with lastUpdated := now }

/-- `handleUpdateProjectState` restricted to the `stage` field (the
stage-change request).  Returns the new state together with the alert
message when the request is rejected (`none` on success).  Guard order is
the source's: the confidence gate first, then the Building conflict. -/
def handleUpdateProjectStateStage (projects : List Project) (st : EngineState)
    (sel : String) (nextStage : Stage) (now : String) : EngineState × Option String :=
  if (nextStage = Stage.Building ∨ nextStage = Stage.Shipping) ∧
      (confidenceLow (confidenceScoreOf projects st.projectLedger sel) = true ∨
       confidenceUnset (confidenceScoreOf projects st.projectLedger sel) = true) then
    (st, some confidenceAlertMsg)
  else if nextStage = Stage.Building ∧
      (buildingProjectIds st.projectState).filter (fun pid => pid != sel) ≠ [] then
    (st, some buildingConflictAlertMsg)
  else
    ({ projectState :=
        setEntry st.projectState sel
          { (getEntry st.projectState sel).getD
              { stage := Stage.Planning, blockers := "", nextCheckpoint := "" } with
            stage := nextStage }
     , projectLedger := touchLedgerUpdate projects st.projectLedger sel now }, none)

/-- `handleUpdateProjectLedger` restricted to the `confidenceScore` field:
stores `value === null ? null : Number(value)` unconditionally and stamps
`lastUpdated: now`.  There is no range check in the source. -/
def handleUpdateProjectLedgerConfidence (projects : List Project)
    (ledgers : List (String × ProjectLedger)) (pid : String) (v : Option Int)
    (now : String) : List (String × ProjectLedger) :=
  setEntry ledgers pid
    { currentProjectLedgerOf projects ledgers pid with confidenceScore := v, lastUpdated := now }

/-- A sequence of stage-change requests `(projectId, requestedStage, now)`
applied in order (each request's alert, if any, is discarded: a rejected
request leaves the state unchanged). -/
def applyStageRequests (projects : List Project) (st : EngineState)
    (reqs : List (String × Stage × String)) : EngineState :=
  reqs.foldl (fun acc r => (handleUpdateProjectStateStage projects acc r.1 r.2.1 r.2.2).1) st

/-! ### Import -/

/-- The shape of a required-array field of an import document as the
validation `!data.f || !Array.isArray(data.f)` sees it: absent (or a
falsy present value), present but not an array, or an array. -/
inductive ArrField (α : Type) where
  | missing : ArrField α
  | notArray : ArrField α
  | arr : List α → ArrField α
deriving DecidableEq

/-- Whether the field passes `data.f && Array.isArray(data.f)`. -/
def ArrField.isArr {α : Type} : ArrField α → Bool
  | .arr _ => true
  | _ => false

/-- The parsed `ExportData` document handed to the import handler.
Optional collections are `Option`; `tasks` and `logs` keep the raw shape
the validation inspects. -/
structure ImportDoc where
  selectedProjectId : Option String
  energy : Option Energy
  projects : Option (List Project)
  tasks : ArrField Task
  logs : ArrField Log
  workMode : Option WorkMode
  workModeOutputs : Option (List (String × WorkModeOutput))
  projectState : Option (List (String × ProjectState))
  milestones : Option (List Milestone)
  projectLedger : Option (List (String × ProjectLedger))
  outreachAgentSpec : Option String
  projectStatuses : Option (List (String × Stage))
deriving DecidableEq

/-- All in-memory collections the import handler can touch. -/
structure AppState where
  selectedProjectId : String
  energy : Energy
  projects : List Project
  tasks : List Task
  logs : List Log
  workMode : WorkMode
  workModeOutputs : List (String × WorkModeOutput)
  projectState : List (String × ProjectState)
  milestones : List Milestone
  projectLedger : List (String × ProjectLedger)
  outreachAgentSpec : String
deriving DecidableEq

/-- `mergeProjects` from the source: stored projects override the defaults
field by field (empty `name`/`goal` fall back to the default), then any
default project whose id is absent is appended. -/
def mergeProjects (storedProjects : List Project) : List Project :=
  let merged := storedProjects.map (fun project =>
    match DEFAULT_PROJECTS.find? (fun d => d.id == project.id) with
    | none => project
    | some defaults =>
      { id := project.id
      , name := if project.name = "" then defaults.name else project.name
      , goal := if project.goal = "" then defaults.goal else project.goal
      , category := project.category })
  merged ++ DEFAULT_PROJECTS.filter (fun d => !(merged.any (fun e => e.id == d.id)))

/-- The `data.projectState` import branch: imported entries written over
`createDefaultProjectState()` in `Object.entries` order. -/
def importMergeState (imported : List (String × ProjectState)) : List (String × ProjectState) :=
  imported.foldl (fun acc e => setEntry acc e.1 e.2) createDefaultProjectState

/-- The legacy `data.projectStatuses` import branch: only ids already in
the default state map get their stage overwritten. -/
def importLegacyStatuses (statuses : List (String × Stage)) : List (String × ProjectState) :=
  statuses.foldl (fun acc e =>
    match getEntry acc e.1 with
    | some stOld => setEntry acc e.1 { stOld with stage := e.2 }
    | none => acc) createDefaultProjectState

/-- The `data.projectLedger` import branch: imported ledgers written over
`createDefaultProjectLedger()`, with `oneSentenceGoal` falling back to
the accumulated entry's goal (`ledger.oneSentenceGoal || merged?.oneSentenceGoal || ''`). -/
def importMergeLedger (imported : List (String × ProjectLedger)) : List (String × ProjectLedger) :=
  imported.foldl (fun acc e =>
    let goal :=
      if e.2.oneSentenceGoal = "" then
        match getEntry acc e.1 with
        | some b => b.oneSentenceGoal
        | none => ""
      else e.2.oneSentenceGoal
    setEntry acc e.1 { e.2 with oneSentenceGoal := goal }) createDefaultProjectLedger

/-- Alert for a missing/invalid `tasks` array. -/
def invalidTasksMsg : String := "Invalid import file: missing or invalid tasks array"

/-- Alert for a missing/invalid `logs` array. -/
def invalidLogsMsg : String := "Invalid import file: missing or invalid logs array"

/-- Alert on import success. -/
def importSuccessMsg : String := "Data imported successfully!"

/-- `handleImport` (the `reader.onload` body after a successful JSON
parse): validate the minimal shape, then restore each collection in the
source's order.  Returns the new in-memory state and the alert shown. -/
def handleImport (doc : ImportDoc) (st : AppState) : AppState × Option String :=
  if ¬ doc.tasks.isArr = true then (st, some invalidTasksMsg)
  else if ¬ doc.logs.isArr = true then (st, some invalidLogsMsg)
  else
    let st := match doc.energy with
      | some e => { st with energy := e }
      | none => st
    let st := match doc.selectedProjectId with
      | some s => if s = "" then st else { st with selectedProjectId := s }
      | none => st
    let st := match doc.tasks with
      | .arr ts => { st with tasks := ts }
      | _ => st
    let st := match doc.logs with
      | .arr ls => { st with logs := ls }
      | _ => st
    let st := match doc.projects with
      | some ps => { st with projects := mergeProjects ps }
      | none => st
    let st := match doc.workMode with
      | some w => { st with workMode := w }
      | none => st
    let st := match doc.workModeOutputs with
      | some w => { st with workModeOutputs := w }
      | none => st
    let st := match doc.projectState with
      | some m => { st with projectState := importMergeState m }
      | none =>
        match doc.projectStatuses with
        | some sts => { st with projectState := importLegacyStatuses sts }
        | none => st
    let st := match doc.milestones with
      | some ms => { st with milestones := ms }
      | none => st
    let st := match doc.projectLedger with
      | some m => { st with projectLedger := importMergeLedger m }
      | none => st
    let st := match doc.outreachAgentSpec with
      | some s => if s = "" then st else { st with outreachAgentSpec := s }
      | none => st
    (st, some importSuccessMsg)

/-! ### SignalCrypt batch approval normalization -/

/-- Approval states of a SignalCrypt batch. -/
inductive ApprovalStatus where
  | PENDING
  | APPROVED
  | REJECTED
deriving DecidableEq

/-- The `approval` block of a `SignalCryptBatch`. -/
structure Approval where
  status : ApprovalStatus
  approvedBy : String
  approvedAt : String
deriving DecidableEq

/-- The post-processing `fetchSignalCryptBatch` applies to the approval
block of a batch parsed from a successful server response before storing
it: default a missing block to PENDING, and reset any non-APPROVED block
to a blank PENDING one. -/
def normalizeFetchedApproval (a : Option Approval) : Approval :=
  let a0 := a.getD { status := ApprovalStatus.PENDING, approvedBy := "", approvedAt := "" }
  if a0.status = ApprovalStatus.APPROVED then a0
  else { status := ApprovalStatus.PENDING, approvedBy := "", approvedAt := "" }

/-- Number of projects currently in the Building stage. -/
def countBuilding (m : List (String × ProjectState)) : Nat :=
  (buildingProjectIds m).length

/-! ### Helper lemmas about the association-list embedding -/

theorem getEntry_map_replace_self {α : Type} (m : List (String × α)) (k : String) (v : α)
    (h : hasKey m k = true) :
    getEntry (m.map (fun e => if e.1 = k then (k, v) else e)) k = some v := by
  induction m with
  | nil => simp [hasKey] at h
  | cons e rest ih =>
    by_cases he : e.1 = k
    · simp [getEntry, he]
    · simp only [hasKey, if_neg he] at h
      simp [getEntry, he, ih h]

theorem getEntry_append_self {α : Type} (m : List (String × α)) (k : String) (v : α) :
    getEntry (m ++ [(k, v)]) k = some (((getEntry m k).getD v)) := by
  induction m with
  | nil => simp [getEntry]
  | cons e rest ih =>
    by_cases he : e.1 = k
    · simp [getEntry, he]
    · simp [getEntry, he, ih]

theorem getEntry_setEntry_self {α : Type} (m : List (String × α)) (k : String) (v : α) :
    getEntry (setEntry m k v) k = some v := by
  unfold setEntry
  split
  · exact getEntry_map_replace_self m k v (by assumption)
  · rename_i h
    rw [getEntry_append_self]
    have hk : getEntry m k = none := by
      simp only [Bool.not_eq_true] at h
      induction m with
      | nil => simp [getEntry]
      | cons e rest ih =>
        by_cases he : e.1 = k
        · simp [hasKey, he] at h
        · simp only [hasKey, if_neg he] at h
          simp [getEntry, he, ih h]
    simp [hk]

theorem getEntry_map_replace_ne {α : Type} (m : List (String × α)) (k k' : String) (v : α)
    (hne : k' ≠ k) :
    getEntry (m.map (fun e => if e.1 = k then (k, v) else e)) k' = getEntry m k' := by
  induction m with
  | nil => simp
  | cons e rest ih =>
    by_cases he : e.1 = k
    · have : ¬ (k = k') := fun h => hne h.symm
      simp [getEntry, he, this, ih]
    · simp [getEntry, he, ih]

theorem getEntry_append_ne {α : Type} (m : List (String × α)) (k k' : String) (v : α)
    (hne : k' ≠ k) :
    getEntry (m ++ [(k, v)]) k' = getEntry m k' := by
  induction m with
  | nil =>
    have : ¬ (k = k') := fun h => hne h.symm
    simp [getEntry, this]
  | cons e rest ih =>
    by_cases he : e.1 = k'
    · simp [getEntry, he]
    · simp [getEntry, he, ih]

theorem getEntry_setEntry_ne {α : Type} (m : List (String × α)) (k k' : String) (v : α)
    (hne : k' ≠ k) :
    getEntry (setEntry m k v) k' = getEntry m k' := by
  unfold setEntry
  split
  · exact getEntry_map_replace_ne m k k' v hne
  · exact getEntry_append_ne m k k' v hne

theorem keys_map_replace {α : Type} (m : List (String × α)) (k : String) (v : α) :
    (m.map (fun e => if e.1 = k then (k, v) else e)).map Prod.fst = m.map Prod.fst := by
  induction m with
  | nil => simp
  | cons e rest ih =>
    by_cases he : e.1 = k
    · simp [he, ih]
    · simp [he, ih]

theorem hasKey_iff_mem {α : Type} (m : List (String × α)) (k : String) :
    hasKey m k = true ↔ k ∈ m.map Prod.fst := by
  induction m with
  | nil => simp [hasKey]
  | cons e rest ih =>
    by_cases he : e.1 = k
    · simp [hasKey, he]
    · have : ¬ (k = e.1) := fun h => he h.symm
      simp [hasKey, he, ih, this]

theorem keysNodup_setEntry {α : Type} (m : List (String × α)) (k : String) (v : α)
    (h : (m.map Prod.fst).Nodup) : ((setEntry m k v).map Prod.fst).Nodup := by
  unfold setEntry
  split
  · rw [keys_map_replace]
    exact h
  · rename_i hk
    simp only [Bool.not_eq_true] at hk
    have hmem : k ∉ m.map Prod.fst := by
      rw [← hasKey_iff_mem, hk]
      simp
    simp only [List.map_append, List.map_cons, List.map_nil]
    rw [List.nodup_append]
    refine ⟨h, List.nodup_singleton k, ?_⟩
    intro a ha hb
    simp only [List.mem_singleton] at hb
    exact hmem (hb ▸ ha)

theorem mem_of_getEntry {α : Type} (m : List (String × α)) (k : String) (v : α)
    (h : getEntry m k = some v) : (k, v) ∈ m := by
  induction m with
  | nil => simp [getEntry] at h
  | cons e rest ih =>
    by_cases he : e.1 = k
    · simp only [getEntry, if_pos he] at h
      have hev : e = (k, v) := by
        obtain ⟨e1, e2⟩ := e
        simp only at he
        simp only [Option.some.injEq] at h
        rw [he, h]
      rw [← hev]
      exact List.mem_cons_self e rest
    · exact List.mem_cons_of_mem e (ih (by simpa [getEntry, he] using h))

theorem hasKey_map_replace {α : Type} (m : List (String × α)) (k : String) (v : α) :
    hasKey (m.map (fun e => if e.1 = k then (k, v) else e)) k = hasKey m k := by
  induction m with
  | nil => rfl
  | cons e rest ih =>
    by_cases he : e.1 = k
    · simp [hasKey, he]
    · simp [hasKey, he, ih]

theorem map_replace_of_hasKey_false {α : Type} (m : List (String × α)) (k : String) (v : α)
    (h : hasKey m k = false) : m.map (fun e => if e.1 = k then (k, v) else e) = m := by
  induction m with
  | nil => rfl
  | cons e rest ih =>
    by_cases he : e.1 = k
    · simp [hasKey, he] at h
    · simp only [hasKey, if_neg he] at h
      simp [he, ih h]

theorem hasKey_append_self {α : Type} (m : List (String × α)) (k : String) (v : α) :
    hasKey (m ++ [(k, v)]) k = true := by
  induction m with
  | nil => simp [hasKey]
  | cons e rest ih =>
    by_cases he : e.1 = k
    · simp [hasKey, he]
    · simp [hasKey, he, ih]

theorem setEntry_setEntry_self {α : Type} (m : List (String × α)) (k : String) (v1 v2 : α) :
    setEntry (setEntry m k v1) k v2 = setEntry m k v2 := by
  by_cases h : hasKey m k = true
  · unfold setEntry
    rw [if_pos h, if_pos (by rw [hasKey_map_replace]; exact h), if_pos h, List.map_map]
    apply List.map_congr_left
    intro e _
    by_cases he : e.1 = k
    · simp [he]
    · simp [he]
  · have hf : hasKey m k = false := by simpa using h
    unfold setEntry
    rw [if_neg h, if_pos (by rw [hasKey_append_self]), if_neg h, List.map_append]
    rw [map_replace_of_hasKey_false m k v2 hf]
    simp

theorem countBuilding_nil : countBuilding [] = 0 := rfl

theorem countBuilding_cons (e : String × ProjectState) (m : List (String × ProjectState)) :
    countBuilding (e :: m) =
      (if e.2.stage = Stage.Building then 1 else 0) + countBuilding m := by
  by_cases he : e.2.stage = Stage.Building
  · simp [countBuilding, buildingProjectIds, List.filter_cons, he, Nat.add_comm]
  · simp [countBuilding, buildingProjectIds, List.filter_cons, he]

theorem countBuilding_append (m1 m2 : List (String × ProjectState)) :
    countBuilding (m1 ++ m2) = countBuilding m1 + countBuilding m2 := by
  simp [countBuilding, buildingProjectIds, List.filter_append]

theorem countBuilding_eq_zero_of (m : List (String × ProjectState))
    (h : ∀ e ∈ m, e.2.stage ≠ Stage.Building) : countBuilding m = 0 := by
  induction m with
  | nil => rfl
  | cons e rest ih =>
    rw [countBuilding_cons]
    have h1 := h e (List.mem_cons_self e rest)
    rw [if_neg h1, ih (fun e' he' => h e' (List.mem_cons_of_mem e he'))]

theorem countBuilding_map_replace_le (m : List (String × ProjectState)) (k : String)
    (v : ProjectState) (hv : v.stage ≠ Stage.Building) :
    countBuilding (m.map (fun e => if e.1 = k then (k, v) else e)) ≤ countBuilding m := by
  induction m with
  | nil => simp
  | cons e rest ih =>
    simp only [List.map_cons]
    rw [countBuilding_cons, countBuilding_cons]
    by_cases he : e.1 = k
    · rw [if_pos he]
      have : ((k, v) : String × ProjectState).2.stage = Stage.Building ↔ False := by
        simp [hv]
      rw [if_neg (by simpa using this.mp)]
      omega
    · rw [if_neg he]
      omega

theorem countBuilding_map_replace_one (m : List (String × ProjectState)) (k : String)
    (v : ProjectState) (hOther : ∀ e ∈ m, e.2.stage = Stage.Building → e.1 = k)
    (hN : (m.map Prod.fst).Nodup) :
    countBuilding (m.map (fun e => if e.1 = k then (k, v) else e)) ≤ 1 := by
  induction m with
  | nil => simp [countBuilding_nil]
  | cons e rest ih =>
    simp only [List.map_cons, List.nodup_cons] at hN ⊢
    rw [countBuilding_cons]
    by_cases he : e.1 = k
    · rw [if_pos he]
      have hrest : countBuilding (rest.map (fun e' => if e'.1 = k then (k, v) else e')) = 0 := by
        apply countBuilding_eq_zero_of
        intro a ha hB
        rcases List.mem_map.mp ha with ⟨e', he', rfl⟩
        by_cases hek : e'.1 = k
        · have hmem : e'.1 ∈ List.map Prod.fst rest := List.mem_map_of_mem Prod.fst he'
          rw [hek, ← he] at hmem
          exact hN.1 hmem
        · rw [if_neg hek] at hB
          exact hek (hOther e' (List.mem_cons_of_mem e he') hB)
      rw [hrest]
      split <;> omega
    · rw [if_neg he]
      have hnotB : ¬ e.2.stage = Stage.Building := fun hB =>
        he (hOther e (List.mem_cons_self e rest) hB)
      rw [if_neg hnotB]
      have := ih (fun e' he' hB => hOther e' (List.mem_cons_of_mem e he') hB) hN.2
      omega

theorem countBuilding_setEntry_le (m : List (String × ProjectState)) (k : String)
    (v : ProjectState) (hv : v.stage ≠ Stage.Building) :
    countBuilding (setEntry m k v) ≤ countBuilding m := by
  unfold setEntry
  split
  · exact countBuilding_map_replace_le m k v hv
  · rw [countBuilding_append, countBuilding_cons]
    rw [if_neg hv]
    simp [countBuilding_nil]

theorem countBuilding_setEntry_one (m : List (String × ProjectState)) (k : String)
    (v : ProjectState) (hOther : ∀ e ∈ m, e.2.stage = Stage.Building → e.1 = k)
    (hN : (m.map Prod.fst).Nodup) :
    countBuilding (setEntry m k v) ≤ 1 := by
  unfold setEntry
  split
  · exact countBuilding_map_replace_one m k v hOther hN
  · rename_i hk
    simp only [Bool.not_eq_true] at hk
    have hz : countBuilding m = 0 := by
      apply countBuilding_eq_zero_of
      intro e he hB
      have h1 := hOther e he hB
      have : hasKey m k = true := (hasKey_iff_mem m k).mpr (h1 ▸ List.mem_map_of_mem Prod.fst he)
      rw [hk] at this
      exact Bool.false_ne_true this
    rw [countBuilding_append, countBuilding_cons, hz, countBuilding_nil]
    split <;> omega

theorem otherBuilding_nil_iff (m : List (String × ProjectState)) (sel : String) :
    (buildingProjectIds m).filter (fun pid => pid != sel) = [] ↔
      ∀ e ∈ m, e.2.stage = Stage.Building → e.1 = sel := by
  rw [List.filter_eq_nil_iff]
  constructor
  · intro h e he hB
    have hmem : e.1 ∈ buildingProjectIds m := by
      simp only [buildingProjectIds, List.mem_map, List.mem_filter]
      exact ⟨e, ⟨he, by simp [hB]⟩, rfl⟩
    have := h e.1 hmem
    simpa using this
  · intro h pid hmem
    simp only [buildingProjectIds, List.mem_map, List.mem_filter] at hmem
    rcases hmem with ⟨e, ⟨he, hB⟩, rfl⟩
    simp only [decide_eq_true_eq] at hB
    simpa using h e he hB

/-- One stage-change request preserves key uniqueness and the
at-most-one-Building bound. -/
theorem stage_step_preserves (projects : List Project) (st : EngineState) (sel : String)
    (s : Stage) (now : String)
    (hN : (st.projectState.map Prod.fst).Nodup) (hC : countBuilding st.projectState ≤ 1) :
    (((handleUpdateProjectStateStage projects st sel s now).1.projectState.map Prod.fst).Nodup) ∧
      countBuilding (handleUpdateProjectStateStage projects st sel s now).1.projectState ≤ 1 := by
  unfold handleUpdateProjectStateStage
  by_cases h1 : (s = Stage.Building ∨ s = Stage.Shipping) ∧
      (confidenceLow (confidenceScoreOf projects st.projectLedger sel) = true ∨
       confidenceUnset (confidenceScoreOf projects st.projectLedger sel) = true)
  · rw [if_pos h1]
    exact ⟨hN, hC⟩
  · rw [if_neg h1]
    by_cases h2 : s = Stage.Building ∧
        (buildingProjectIds st.projectState).filter (fun pid => pid != sel) ≠ []
    · rw [if_pos h2]
      exact ⟨hN, hC⟩
    · rw [if_neg h2]
      refine ⟨keysNodup_setEntry _ _ _ hN, ?_⟩
      by_cases hs : s = Stage.Building
      · have hfilter : (buildingProjectIds st.projectState).filter (fun pid => pid != sel) = [] := by
          by_contra hne
          exact h2 ⟨hs, hne⟩
        exact countBuilding_setEntry_one _ _ _ ((otherBuilding_nil_iff _ _).mp hfilter) hN
      · have hstage : ({ (getEntry st.projectState sel).getD
            { stage := Stage.Planning, blockers := "", nextCheckpoint := "" } with
            stage := s } : ProjectState).stage ≠ Stage.Building := hs
        exact le_trans (countBuilding_setEntry_le _ _ _ hstage) hC

/-! ### Concrete scenario states -/

/-- The first-run in-memory state: seed projects, default state and
ledger maps, empty collections. -/
def initialAppState : AppState :=
  { selectedProjectId := "ark-engine", energy := Energy.medium, projects := DEFAULT_PROJECTS
  , tasks := [], logs := [], workMode := WorkMode.dev, workModeOutputs := []
  , projectState := createDefaultProjectState, milestones := []
  , projectLedger := createDefaultProjectLedger, outreachAgentSpec := "" }

/-- The engine-facing slice of the first-run state. -/
def initialEngineState : EngineState :=
  { projectState := createDefaultProjectState, projectLedger := createDefaultProjectLedger }

/-- An import document that injects two Building projects directly,
bypassing the stage-change guard. -/
def twoBuildingImportDoc : ImportDoc :=
  { selectedProjectId := none, energy := none, projects := none
  , tasks := ArrField.arr [], logs := ArrField.arr []
  , workMode := none, workModeOutputs := none
  , projectState := some
      [("ark-engine", { stage := Stage.Building, blockers := "", nextCheckpoint := "" }),
       ("signalcrypt", { stage := Stage.Building, blockers := "", nextCheckpoint := "" })]
  , milestones := none, projectLedger := none, outreachAgentSpec := none
  , projectStatuses := none }

/-- The state reached by importing `twoBuildingImportDoc` over the
first-run state: ark-engine and signalcrypt are both in Building. -/
def twoBuildingState : AppState := (handleImport twoBuildingImportDoc initialAppState).1

/-- A state in which ark-engine is in Building and every ledger still has
a null confidence score. -/
def oneBuildingUnsetState : EngineState :=
  { projectState := setEntry createDefaultProjectState "ark-engine"
      { stage := Stage.Building, blockers := "", nextCheckpoint := "" }
  , projectLedger := createDefaultProjectLedger }

/-- The first-run engine state with signalcrypt's confidence score set
to 2 (set but below 3). -/
def lowConfidenceState : EngineState :=
  { projectState := createDefaultProjectState
  , projectLedger := setEntry createDefaultProjectLedger "signalcrypt"
      { currentProjectLedgerOf DEFAULT_PROJECTS createDefaultProjectLedger "signalcrypt" with
        confidenceScore := some 2 } }

/-! ### Claims -/

/-- C1: for every starting state in which at most one project is in
Building (and whose project-state object has unique keys, as every JS
object does), any sequence of stage-change requests through
`handleUpdateProjectState` on the stage field leaves at most one project
in Building: the engine never itself introduces a second Building
project. -/
theorem C1_single_building_preserved (projects : List Project)
    (reqs : List (String × Stage × String)) (st : EngineState)
    (hN : (st.projectState.map Prod.fst).Nodup)
    (hC : countBuilding st.projectState ≤ 1) :
    countBuilding (applyStageRequests projects st reqs).projectState ≤ 1 := by
  induction reqs generalizing st with
  | nil => exact hC
  | cons r rest ih =>
    have h := stage_step_preserves projects st r.1 r.2.1 r.2.2 hN hC
    exact ih _ h.1 h.2

/-- C1 witness: from the first-run state, requesting Building for
signalcrypt and then ark-engine leaves at most one Building project. -/
theorem C1_single_building_preserved_witness :
    ((initialEngineState.projectState.map Prod.fst).Nodup ∧
      countBuilding initialEngineState.projectState ≤ 1) ∧
    countBuilding (applyStageRequests DEFAULT_PROJECTS initialEngineState
      [("signalcrypt", (Stage.Building, "t1")), ("ark-engine", (Stage.Building, "t2"))]).projectState ≤ 1 :=
  ⟨⟨by decide, by decide⟩,
    C1_single_building_preserved DEFAULT_PROJECTS
      [("signalcrypt", (Stage.Building, "t1")), ("ark-engine", (Stage.Building, "t2"))]
      initialEngineState (by decide) (by decide)⟩

/-- C3 counterexample: ark-engine is already in Building and
signalcrypt's confidence is unset; the claim says the request must fail
with the BuildingConflict reason regardless of signalcrypt's confidence,
but the code checks the confidence gate first and rejects with the
confidence alert instead. -/
theorem C3_counterexample :
    (handleUpdateProjectStateStage DEFAULT_PROJECTS oneBuildingUnsetState
        "signalcrypt" Stage.Building "t").2 = some confidenceAlertMsg ∧
    (handleUpdateProjectStateStage DEFAULT_PROJECTS oneBuildingUnsetState
        "signalcrypt" Stage.Building "t").2 ≠ some buildingConflictAlertMsg := by
  constructor
  · decide
  · decide

/-- C3 (amended): when another project q ≠ p is in Building, a request to
move p into Building is always rejected and no state is mutated; the
reported reason is the Building-conflict alert when p passes the
confidence gate, and the confidence alert otherwise (the confidence check
runs first). -/
theorem C3_building_conflict_amended (projects : List Project) (st : EngineState)
    (p q : String) (now : String) (stq : ProjectState)
    (hpq : q ≠ p) (hq : getEntry st.projectState q = some stq)
    (hB : stq.stage = Stage.Building) :
    (handleUpdateProjectStateStage projects st p Stage.Building now).1 = st ∧
    (handleUpdateProjectStateStage projects st p Stage.Building now).2 =
      some (if confidenceLow (confidenceScoreOf projects st.projectLedger p) = true ∨
              confidenceUnset (confidenceScoreOf projects st.projectLedger p) = true
            then confidenceAlertMsg else buildingConflictAlertMsg) := by
  have hfilter : (buildingProjectIds st.projectState).filter (fun pid => pid != p) ≠ [] := by
    intro hnil
    have hmem : q ∈ (buildingProjectIds st.projectState).filter (fun pid => pid != p) := by
      rw [List.mem_filter]
      refine ⟨?_, by simpa using hpq⟩
      simp only [buildingProjectIds, List.mem_map, List.mem_filter]
      exact ⟨(q, stq), ⟨mem_of_getEntry _ _ _ hq, by simp [hB]⟩, rfl⟩
    rw [hnil] at hmem
    exact List.not_mem_nil q hmem
  unfold handleUpdateProjectStateStage
  by_cases h1 : (Stage.Building = Stage.Building ∨ Stage.Building = Stage.Shipping) ∧
      (confidenceLow (confidenceScoreOf projects st.projectLedger p) = true ∨
       confidenceUnset (confidenceScoreOf projects st.projectLedger p) = true)
  · rw [if_pos h1, if_pos h1.2]
    exact ⟨rfl, rfl⟩
  · rw [if_neg h1]
    have h2 : Stage.Building = Stage.Building ∧
        (buildingProjectIds st.projectState).filter (fun pid => pid != p) ≠ [] :=
      ⟨rfl, hfilter⟩
    rw [if_pos h2]
    have hok : ¬ (confidenceLow (confidenceScoreOf projects st.projectLedger p) = true ∨
        confidenceUnset (confidenceScoreOf projects st.projectLedger p) = true) :=
      fun hc => h1 ⟨Or.inl rfl, hc⟩
    rw [if_neg hok]
    exact ⟨rfl, rfl⟩

/-- C3 witness: the amended theorem applied to the state in which
ark-engine is Building and signalcrypt's confidence is unset. -/
theorem C3_building_conflict_amended_witness :
    (("ark-engine" : String) ≠ "signalcrypt" ∧
      getEntry oneBuildingUnsetState.projectState "ark-engine" =
        some { stage := Stage.Building, blockers := "", nextCheckpoint := "" }) ∧
    (handleUpdateProjectStateStage DEFAULT_PROJECTS oneBuildingUnsetState
        "signalcrypt" Stage.Building "t").1 = oneBuildingUnsetState :=
  ⟨⟨by decide, by decide⟩,
    (C3_building_conflict_amended DEFAULT_PROJECTS oneBuildingUnsetState
      "signalcrypt" "ark-engine" "t"
      { stage := Stage.Building, blockers := "", nextCheckpoint := "" }
      (by decide) (by decide) rfl).1⟩

/-- C4 counterexample: the stage-change guard emits one and the same
alert whether signalcrypt's confidence is unset or set to 2; the rejection
reasons the claim requires to be distinguishable are identical. -/
theorem C4_counterexample :
    (handleUpdateProjectStateStage DEFAULT_PROJECTS initialEngineState
        "signalcrypt" Stage.Building "t").2 =
      (handleUpdateProjectStateStage DEFAULT_PROJECTS lowConfidenceState
        "signalcrypt" Stage.Building "t").2 ∧
    (handleUpdateProjectStateStage DEFAULT_PROJECTS initialEngineState
        "signalcrypt" Stage.Building "t").2 = some confidenceAlertMsg := by
  constructor
  · decide
  · decide

/-- C4 (amended): a request to move a project into Building or Shipping
while its confidence score is null or below 3 is rejected with the single
shared confidence alert (the same message in both cases) and no state is
mutated, so the project's stage is unchanged. -/
theorem C4_confidence_gate_amended (projects : List Project) (st : EngineState)
    (p : String) (s : Stage) (now : String)
    (hs : s = Stage.Building ∨ s = Stage.Shipping)
    (hc : confidenceUnset (confidenceScoreOf projects st.projectLedger p) = true ∨
          confidenceLow (confidenceScoreOf projects st.projectLedger p) = true) :
    handleUpdateProjectStateStage projects st p s now = (st, some confidenceAlertMsg) := by
  unfold handleUpdateProjectStateStage
  rw [if_pos ⟨hs, hc.symm⟩]

/-- C4 witness: signalcrypt at stage Planning with confidence null; the
Building request fails with the confidence alert and the stage stays
Planning. -/
theorem C4_confidence_gate_amended_witness :
    (confidenceUnset (confidenceScoreOf DEFAULT_PROJECTS
        initialEngineState.projectLedger "signalcrypt") = true ∧
      getEntry initialEngineState.projectState "signalcrypt" =
        some { stage := Stage.Planning, blockers := "", nextCheckpoint := "" }) ∧
    handleUpdateProjectStateStage DEFAULT_PROJECTS initialEngineState
      "signalcrypt" Stage.Building "t" = (initialEngineState, some confidenceAlertMsg) :=
  ⟨⟨by decide, by decide⟩,
    C4_confidence_gate_amended DEFAULT_PROJECTS initialEngineState
      "signalcrypt" Stage.Building "t" (Or.inl rfl) (Or.inl (by decide))⟩

/-- C6: a stage-change request to Planning, Maintenance or Paused always
succeeds (no guard applies, regardless of the confidence score and of
other projects' stages), and every accepted stage change stores the
requested stage for the project and stamps its ledger `lastUpdated` with
the current time. -/
theorem C6_unguarded_stages (projects : List Project) (st : EngineState)
    (p : String) (s : Stage) (now : String) :
    (s = Stage.Planning ∨ s = Stage.Maintenance ∨ s = Stage.Paused →
      (handleUpdateProjectStateStage projects st p s now).2 = none) ∧
    ((handleUpdateProjectStateStage projects st p s now).2 = none →
      getEntry (handleUpdateProjectStateStage projects st p s now).1.projectState p =
        some { (getEntry st.projectState p).getD
                 { stage := Stage.Planning, blockers := "", nextCheckpoint := "" } with
               stage := s } ∧
      getEntry (handleUpdateProjectStateStage projects st p s now).1.projectLedger p =
        some { currentProjectLedgerOf projects st.projectLedger p with lastUpdated := now }) := by
  unfold handleUpdateProjectStateStage
  by_cases h1 : (s = Stage.Building ∨ s = Stage.Shipping) ∧
      (confidenceLow (confidenceScoreOf projects st.projectLedger p) = true ∨
       confidenceUnset (confidenceScoreOf projects st.projectLedger p) = true)
  · rw [if_pos h1]
    constructor
    · intro hs
      exfalso
      rcases h1.1 with h | h <;> rcases hs with h' | h' | h' <;>
        · rw [h'] at h
          exact absurd h (by decide)
    · intro h
      simp at h
  · rw [if_neg h1]
    by_cases h2 : s = Stage.Building ∧
        (buildingProjectIds st.projectState).filter (fun pid => pid != p) ≠ []
    · rw [if_pos h2]
      constructor
      · intro hs
        exfalso
        rcases hs with h' | h' | h' <;>
          · rw [h'] at h2
            exact absurd h2.1 (by decide)
      · intro h
        simp at h
    · rw [if_neg h2]
      refine ⟨fun _ => rfl, fun _ => ⟨?_, ?_⟩⟩
      · exact getEntry_setEntry_self _ _ _
      · unfold touchLedgerUpdate
        exact getEntry_setEntry_self _ _ _

/-- C6 witness: a Planning request for signalcrypt on the first-run state
succeeds, stores stage Planning, and stamps the ledger timestamp. -/
theorem C6_unguarded_stages_witness :
    (handleUpdateProjectStateStage DEFAULT_PROJECTS initialEngineState
        "signalcrypt" Stage.Planning "t").2 = none ∧
    (getEntry (handleUpdateProjectStateStage DEFAULT_PROJECTS initialEngineState
        "signalcrypt" Stage.Planning "t").1.projectState "signalcrypt" =
      some { (getEntry initialEngineState.projectState "signalcrypt").getD
               { stage := Stage.Planning, blockers := "", nextCheckpoint := "" } with
             stage := Stage.Planning } ∧
     getEntry (handleUpdateProjectStateStage DEFAULT_PROJECTS initialEngineState
        "signalcrypt" Stage.Planning "t").1.projectLedger "signalcrypt" =
      some { currentProjectLedgerOf DEFAULT_PROJECTS initialEngineState.projectLedger
               "signalcrypt" with lastUpdated := "t" }) :=
  ⟨(C6_unguarded_stages DEFAULT_PROJECTS initialEngineState "signalcrypt"
      Stage.Planning "t").1 (Or.inl rfl),
   (C6_unguarded_stages DEFAULT_PROJECTS initialEngineState "signalcrypt"
      Stage.Planning "t").2
     ((C6_unguarded_stages DEFAULT_PROJECTS initialEngineState "signalcrypt"
        Stage.Planning "t").1 (Or.inl rfl))⟩

/-- C9: a stage-change request never changes the stage entry of any other
project, whether it succeeds or fails; and when it is rejected (an alert
is produced) no state at all is mutated: project states and ledgers are
exactly as before. -/
theorem C9_frame (projects : List Project) (st : EngineState) (p : String)
    (s : Stage) (now : String) (q : String) (hq : q ≠ p) :
    getEntry (handleUpdateProjectStateStage projects st p s now).1.projectState q =
      getEntry st.projectState q ∧
    (∀ msg, (handleUpdateProjectStateStage projects st p s now).2 = some msg →
      (handleUpdateProjectStateStage projects st p s now).1 = st) := by
  unfold handleUpdateProjectStateStage
  by_cases h1 : (s = Stage.Building ∨ s = Stage.Shipping) ∧
      (confidenceLow (confidenceScoreOf projects st.projectLedger p) = true ∨
       confidenceUnset (confidenceScoreOf projects st.projectLedger p) = true)
  · rw [if_pos h1]
    exact ⟨rfl, fun _ _ => rfl⟩
  · rw [if_neg h1]
    by_cases h2 : s = Stage.Building ∧
        (buildingProjectIds st.projectState).filter (fun pid => pid != p) ≠ []
    · rw [if_pos h2]
      exact ⟨rfl, fun _ _ => rfl⟩
    · rw [if_neg h2]
      refine ⟨getEntry_setEntry_ne _ _ _ _ hq, ?_⟩
      intro msg h
      simp at h

/-- C9 witness: on the first-run state a signalcrypt request leaves
ark-engine's stage entry untouched. -/
theorem C9_frame_witness :
    (("ark-engine" : String) ≠ "signalcrypt") ∧
    getEntry (handleUpdateProjectStateStage DEFAULT_PROJECTS initialEngineState
        "signalcrypt" Stage.Planning "t").1.projectState "ark-engine" =
      getEntry initialEngineState.projectState "ark-engine" :=
  ⟨by decide,
    (C9_frame DEFAULT_PROJECTS initialEngineState "signalcrypt" Stage.Planning "t"
      "ark-engine" (by decide)).1⟩

/-- C7 counterexample: `updateLedgerField` with confidenceScore value 7 is
not rejected: the out-of-range value 7 is stored as-is (the default was
null), so the ledger does change. -/
theorem C7_counterexample :
    (getEntry (handleUpdateProjectLedgerConfidence DEFAULT_PROJECTS
        createDefaultProjectLedger "signalcrypt" (some 7) "t") "signalcrypt").map
      (fun l => l.confidenceScore) = some (some 7) ∧
    (getEntry createDefaultProjectLedger "signalcrypt").map
      (fun l => l.confidenceScore) = some none := by
  constructor
  · decide
  · decide

/-- C7 (amended): `updateLedgerField` on the confidenceScore field performs
no range check at all: every value v (including values outside 1..5, and
null) is stored exactly as given — neither rejected nor clamped — and the
ledger's `lastUpdated` is set to the current time. -/
theorem C7_no_range_check_amended (projects : List Project)
    (ledgers : List (String × ProjectLedger)) (pid : String) (v : Option Int)
    (now : String) :
    getEntry (handleUpdateProjectLedgerConfidence projects ledgers pid v now) pid =
      some { currentProjectLedgerOf projects ledgers pid with
             confidenceScore := v, lastUpdated := now } := by
  unfold handleUpdateProjectLedgerConfidence
  exact getEntry_setEntry_self _ _ _

/-- Unfolding equation for `handleUpdateProjectLedgerConfidence`. -/
theorem handleConfidence_eq_setEntry (projects : List Project)
    (ledgers : List (String × ProjectLedger)) (pid : String) (v : Option Int)
    (now : String) :
    handleUpdateProjectLedgerConfidence projects ledgers pid v now =
      setEntry ledgers pid
        { currentProjectLedgerOf projects ledgers pid with
          confidenceScore := v, lastUpdated := now } := rfl

/-- A freshly written entry is what the component reads back as the
current ledger of that project. -/
theorem currentLedger_setEntry_self (projects : List Project)
    (ledgers : List (String × ProjectLedger)) (pid : String) (v : ProjectLedger) :
    currentProjectLedgerOf projects (setEntry ledgers pid v) pid = v := by
  unfold currentProjectLedgerOf
  rw [getEntry_setEntry_self]

/-- C8: writing confidence 4 twice in a row produces exactly the state a
single write at the second time produces; the final score is 4 and the
final `lastUpdated` is the second call's timestamp. -/
theorem C8_confidence_idempotent (projects : List Project)
    (ledgers : List (String × ProjectLedger)) (pid : String) (t1 t2 : String) :
    handleUpdateProjectLedgerConfidence projects
        (handleUpdateProjectLedgerConfidence projects ledgers pid (some 4) t1)
        pid (some 4) t2 =
      handleUpdateProjectLedgerConfidence projects ledgers pid (some 4) t2 ∧
    (getEntry (handleUpdateProjectLedgerConfidence projects
        (handleUpdateProjectLedgerConfidence projects ledgers pid (some 4) t1)
        pid (some 4) t2) pid).map (fun l => l.confidenceScore) = some (some 4) ∧
    (getEntry (handleUpdateProjectLedgerConfidence projects
        (handleUpdateProjectLedgerConfidence projects ledgers pid (some 4) t1)
        pid (some 4) t2) pid).map (fun l => l.lastUpdated) = some t2 := by
  have heq : handleUpdateProjectLedgerConfidence projects
      (handleUpdateProjectLedgerConfidence projects ledgers pid (some 4) t1)
      pid (some 4) t2 =
      handleUpdateProjectLedgerConfidence projects ledgers pid (some 4) t2 := by
    rw [handleConfidence_eq_setEntry projects
      (handleUpdateProjectLedgerConfidence projects ledgers pid (some 4) t1) pid (some 4) t2]
    rw [handleConfidence_eq_setEntry projects ledgers pid (some 4) t1]
    rw [currentLedger_setEntry_self]
    rw [handleConfidence_eq_setEntry projects ledgers pid (some 4) t2]
    exact setEntry_setEntry_self _ _ _ _
  refine ⟨heq, ?_, ?_⟩
  · rw [heq, handleConfidence_eq_setEntry, getEntry_setEntry_self]
    exact rfl
  · rw [heq, handleConfidence_eq_setEntry, getEntry_setEntry_self]
    exact rfl

/-- C5: an import document whose `tasks` or `logs` field is missing or
not an array is rejected with one of the two user-visible shape errors,
and no in-memory collection changes — the returned state is exactly the
old one, so there is no partial apply. -/
theorem C5_import_shape_rejection (doc : ImportDoc) (st : AppState)
    (h : doc.tasks.isArr = false ∨ doc.logs.isArr = false) :
    (handleImport doc st).1 = st ∧
      ((handleImport doc st).2 = some invalidTasksMsg ∨
       (handleImport doc st).2 = some invalidLogsMsg) := by
  unfold handleImport
  by_cases h1 : doc.tasks.isArr = true
  · have h2 : doc.logs.isArr = false := by
      rcases h with h | h
      · rw [h1] at h
        exact absurd h (by decide)
      · exact h
    rw [if_neg (not_not_intro h1), if_pos (by simp [h2])]
    exact ⟨rfl, Or.inr rfl⟩
  · rw [if_pos h1]
    exact ⟨rfl, Or.inl rfl⟩

/-- C5 witness: the document with an empty tasks array and a non-array
logs field is rejected with the logs shape error and the state is
untouched. -/
theorem C5_import_shape_rejection_witness :
    (({ selectedProjectId := none, energy := none, projects := none
      , tasks := ArrField.arr [], logs := ArrField.notArray
      , workMode := none, workModeOutputs := none, projectState := none
      , milestones := none, projectLedger := none, outreachAgentSpec := none
      , projectStatuses := none } : ImportDoc).logs.isArr = false) ∧
    (handleImport
      { selectedProjectId := none, energy := none, projects := none
      , tasks := ArrField.arr [], logs := ArrField.notArray
      , workMode := none, workModeOutputs := none, projectState := none
      , milestones := none, projectLedger := none, outreachAgentSpec := none
      , projectStatuses := none } initialAppState).1 = initialAppState ∧
    (handleImport
      { selectedProjectId := none, energy := none, projects := none
      , tasks := ArrField.arr [], logs := ArrField.notArray
      , workMode := none, workModeOutputs := none, projectState := none
      , milestones := none, projectLedger := none, outreachAgentSpec := none
      , projectStatuses := none } initialAppState).2 = some invalidLogsMsg :=
  ⟨by decide,
    (C5_import_shape_rejection
      { selectedProjectId := none, energy := none, projects := none
      , tasks := ArrField.arr [], logs := ArrField.notArray
      , workMode := none, workModeOutputs := none, projectState := none
      , milestones := none, projectLedger := none, outreachAgentSpec := none
      , projectStatuses := none } initialAppState (Or.inr (by decide))).1,
    by decide⟩

/-- C2: the execution-lock reasons list is empty exactly when the lock is
off; when more than one project is in Building the first reason is the
Building-conflict message naming every Building project; the confidence
reason is last and is the unset message when the score is null, the
below-3 message when it is set but low; the list length shows each
applicable reason appears exactly once; and on the two-Building state
reached by import, both ark-engine and signalcrypt report a locked state
whose first reason names both Building projects. -/
theorem C2_execution_lock_reasons (projects : List Project)
    (m : List (String × ProjectState)) (ledgers : List (String × ProjectLedger))
    (sel : String) :
    (executionBlockMessages projects m ledgers sel = [] ↔
      isExecutionBlocked projects m ledgers sel = false) ∧
    (hasBuildingConflict m = true →
      (executionBlockMessages projects m ledgers sel).head? =
        some ("Multiple projects in Building: " ++
          String.intercalate ", " (buildingProjectNames projects m))) ∧
    (confidenceUnset (confidenceScoreOf projects ledgers sel) = true →
      (executionBlockMessages projects m ledgers sel).getLast? =
        some "Confidence score is not set for this project") ∧
    (confidenceUnset (confidenceScoreOf projects ledgers sel) = false →
      confidenceLow (confidenceScoreOf projects ledgers sel) = true →
      (executionBlockMessages projects m ledgers sel).getLast? =
        some "Confidence score is below 3 for this project") ∧
    ((executionBlockMessages projects m ledgers sel).length =
      (if hasBuildingConflict m = true then 1 else 0) +
      (if confidenceUnset (confidenceScoreOf projects ledgers sel) = true ∨
          confidenceLow (confidenceScoreOf projects ledgers sel) = true then 1 else 0)) ∧
    (isExecutionBlocked DEFAULT_PROJECTS twoBuildingState.projectState
        twoBuildingState.projectLedger "ark-engine" = true ∧
      isExecutionBlocked DEFAULT_PROJECTS twoBuildingState.projectState
        twoBuildingState.projectLedger "signalcrypt" = true ∧
      (executionBlockMessages DEFAULT_PROJECTS twoBuildingState.projectState
          twoBuildingState.projectLedger "ark-engine").head? =
        some "Multiple projects in Building: Ark Engine (Core), SignalCrypt") := by
  refine ⟨?_, ?_, ?_, ?_, ?_, by decide, by decide, by decide⟩ <;>
    · cases hconf : hasBuildingConflict m <;>
        cases hu : confidenceUnset (confidenceScoreOf projects ledgers sel) <;>
          cases hl : confidenceLow (confidenceScoreOf projects ledgers sel) <;>
            simp [executionBlockMessages, isExecutionBlocked, hconf, hu, hl]

/-- C10: the approval block stored for a batch fetched from a successful
server response is APPROVED only when the server response itself carried
an APPROVED block; any other or missing status is stored as a blank
PENDING block, and a fetched batch is never stored as REJECTED. -/
theorem C10_fetched_approval (a : Option Approval) :
    ((normalizeFetchedApproval a).status = ApprovalStatus.APPROVED ↔
      ∃ b t, a = some { status := ApprovalStatus.APPROVED, approvedBy := b, approvedAt := t }) ∧
    ((normalizeFetchedApproval a).status ≠ ApprovalStatus.APPROVED →
      normalizeFetchedApproval a =
        { status := ApprovalStatus.PENDING, approvedBy := "", approvedAt := "" }) ∧
    (normalizeFetchedApproval a).status ≠ ApprovalStatus.REJECTED := by
  rcases a with _ | ⟨s, b, t⟩
  · refine ⟨?_, fun _ => rfl, ?_⟩
    · simp [normalizeFetchedApproval, Option.getD]
    · simp [normalizeFetchedApproval, Option.getD]
  · cases s
    · refine ⟨?_, fun _ => rfl, ?_⟩
      · simp [normalizeFetchedApproval, Option.getD]
      · simp [normalizeFetchedApproval, Option.getD]
    · refine ⟨?_, ?_, ?_⟩
      · simp only [normalizeFetchedApproval, Option.getD]
        constructor
        · intro _
          exact ⟨b, t, rfl⟩
        · intro _
          rfl
      · intro h
        exact absurd rfl h
      · simp [normalizeFetchedApproval, Option.getD]
    · refine ⟨?_, fun _ => rfl, ?_⟩
      · simp [normalizeFetchedApproval, Option.getD]
      · simp [normalizeFetchedApproval, Option.getD]

/-- C10 witness: a REJECTED approval block from the server is stored as a
blank PENDING block. -/
theorem C10_fetched_approval_witness :
    normalizeFetchedApproval
        (some { status := ApprovalStatus.REJECTED, approvedBy := "x", approvedAt := "y" }) =
      { status := ApprovalStatus.PENDING, approvedBy := "", approvedAt := "" } :=
  (C10_fetched_approval
    (some { status := ApprovalStatus.REJECTED, approvedBy := "x", approvedAt := "y" })).2.1
    (by decide)

end ArkEngine
